import Mathlib

/-!
Shallow embedding of the token-lifecycle core and measurement helpers of the
withings Go client (package `withings`).

Time instants are embedded as `Int`, in the nanosecond scale of Go's
`time.Time`; `second` below is `time.Second`.  The external collaborators of
the core (the token-exchange endpoint behind `Client.RefreshAccessToken`, and
the HTTP resource fetch behind `Client.GetMeasure`) are passed in as function
parameters, mirroring the spec's treatment of them as abstract collaborators;
a Go `(value, error)` pair from the refresh collaborator is embedded as
`Except` (value or error), and the fetch collaborator as a pair of options,
since `Client.GetMeasure` can return a non-nil response together with a
non-nil error (API status codes).
-/

namespace Withings

/-- One second in the nanosecond scale of Go `time.Time` durations
(`time.Second`). -/
def second : Int := 1000000000

/-- Embeds the Go struct `AccessToken`.  The fields `UserID`, `AccessToken`,
`RefreshToken`, `ExpiresIn`, `CSRFToken`, `TokenType` are the struct fields
visible in the source; `ExpiresAt` is the `time.Time` field read by
`AuthorizedUser.checkToken` (embedded as an instant in nanoseconds). -/
structure AccessToken where
  UserID : Int
  AccessToken : String
  RefreshToken : String
  ExpiresIn : Int
  CSRFToken : String
  TokenType : String
  ExpiresAt : Int
  deriving Repr, DecidableEq

/-- Embeds the Go struct `AccessTokenResponse` (`Status` plus the token
carried in the `body` field). -/
structure AccessTokenResponse where
  Status : Int
  AccessToken : AccessToken
  deriving Repr, DecidableEq

/-- Embeds the Go struct `AuthorizedUser`: it owns the current token `t`.
The `*Client` back-pointer is not part of the state relevant here (the client
is stateless for these operations) and the mutex is modelled explicitly in the
concurrent semantics further below. -/
structure AuthorizedUser where
  t : AccessToken
  deriving Repr, DecidableEq

/-- Result of one call to `checkToken`: the two Go return values
(`*AccessTokenResponse`, `error`), the state of the `AuthorizedUser` after
the call, and the list of tokens the refresh collaborator was invoked with
(in order), so that theorems can speak about how many refresh network calls
were made and with which token. -/
structure CheckResult where
  tokenResp : Option AccessTokenResponse
  err : Option String
  user : AuthorizedUser
  refreshedWith : List AccessToken
  deriving Repr, DecidableEq

/-- Embeds `AuthorizedUser.checkToken`.  The Go code computes
`expAt := a.t.ExpiresAt.Add(-10 * time.Second)` and refreshes when
`time.Now().After(expAt)` holds, i.e. when `now` is strictly after `expAt`;
`now` embeds the single `time.Now()` call.  On refresh success the stored
token is replaced by the token of the response; on refresh failure the stored
token is left unchanged and the error is returned. -/
def checkToken (refresh : AccessToken → Except String AccessTokenResponse)
    (now : Int) (a : AuthorizedUser) : CheckResult :=
  let expAt := a.t.ExpiresAt - 10 * second
  if expAt < now then
    match refresh a.t with
    | .error e =>
        { tokenResp := none, err := some e, user := a, refreshedWith := [a.t] }
    | .ok tokenResp =>
        { tokenResp := some tokenResp, err := none,
          user := { a with t := tokenResp.AccessToken },
          refreshedWith := [a.t] }
  else
    { tokenResp := none, err := none, user := a, refreshedWith := [] }

section Measures

/-- Embeds the Go named type `MeasureType` (an `int64`). -/
abbrev MeasureType := Int

/-- Embeds the Go constant `MeasureTypeWeightKilogram MeasureType = 1`. -/
def MeasureTypeWeightKilogram : MeasureType := 1

/-- Embeds the Go struct `Measure` (`Value int64`, `Type MeasureType`,
`Unit int`). -/
structure Measure where
  Value : Int
  «Type» : MeasureType
  Unit : Int
  deriving Repr, DecidableEq

/-- Embeds the Go slice type `Measures`. -/
abbrev Measures := List Measure

/-- Embeds the Go struct `MeasureGroup`.  `Created` and `Date` are unix
timestamps in seconds, kept as integers. -/
structure MeasureGroup where
  GroupID : Int
  Attrib : Int
  Date : Int
  Created : Int
  Category : Int
  DeviceID : String
  Measures : Measures
  Comment : String
  deriving Repr, DecidableEq

/-- Embeds the Go slice type `MeasureGroups`. -/
abbrev MeasureGroups := List MeasureGroup

/-- Embeds the Go struct `GetMeasureBody`. -/
structure GetMeasureBody where
  UpdateTime : Int
  Timezone : String
  MeasureGroups : MeasureGroups
  More : Int
  Offset : Int
  deriving Repr, DecidableEq

/-- Embeds the Go struct `GetMeasureResp` (`Status int64`, `APIError string`,
`Body GetMeasureBody`). -/
structure GetMeasureResp where
  Status : Int
  APIError : String
  Body : GetMeasureBody
  deriving Repr, DecidableEq

/-- Embeds `Measure.DecimalValue`: `float64(m.Value) * math.Pow10(m.Unit)`.
The real arithmetic is embedded over the rationals. -/
def Measure.DecimalValue (m : Measure) : ℚ :=
  (m.Value : ℚ) * (10 : ℚ) ^ m.Unit

/-- Embeds the Go struct `WeightMeasurement`.  `Created` holds the unix
seconds of the originating group (Go stores `time.Unix(group.Created, 0)`);
the Go zero value of the struct has the zero time, zero strings and zero
numbers, embedded as `0` and `""`. -/
structure WeightMeasurement where
  Pounds : ℚ
  Kilograms : ℚ
  Created : Int
  DeviceID : String
  GroupID : Int
  deriving Repr, DecidableEq

/-- Embeds `Measure.ToWeight`: nil unless the measure type is
`MeasureTypeWeightKilogram`; otherwise builds a `WeightMeasurement` from the
decimal value (pounds via the factor 2.20462) and, when a group pointer is
supplied, copies `Created`, `DeviceID` and `GroupID` from the group. -/
def Measure.ToWeight (m : Measure) (group : Option MeasureGroup) :
    Option WeightMeasurement :=
  if m.«Type» ≠ MeasureTypeWeightKilogram then
    none
  else
    let v := m.DecimalValue
    let w : WeightMeasurement :=
      { Pounds := v * (2.20462 : ℚ), Kilograms := v,
        Created := 0, DeviceID := "", GroupID := 0 }
    some (match group with
          | some g =>
              { w with Created := g.Created, DeviceID := g.DeviceID,
                       GroupID := g.GroupID }
          | none => w)

/-- Embeds `MeasureGroups.Weights`: the nested loop over groups and their
measures, appending the non-nil results of `ToWeight` (called with the
address of the current group) to an initially empty slice. -/
def MeasureGroups.Weights (m : MeasureGroups) : List WeightMeasurement :=
  m.foldl (fun weights g =>
    g.Measures.foldl (fun ws meas =>
      match meas.ToWeight (some g) with
      | some w => ws ++ [w]
      | none => ws) weights) []

end Measures

/-- Result of one call to a dispatcher method such as
`AuthorizedUser.GetMeasure`: the three Go return values
(`*GetMeasureResp`, `*AccessToken`, `error`), the state of the
`AuthorizedUser` after the call, and the lists of tokens the refresh and the
resource-fetch collaborators were invoked with, in order. -/
structure DispatchResult where
  resp : Option GetMeasureResp
  newToken : Option AccessToken
  err : Option String
  user : AuthorizedUser
  refreshedWith : List AccessToken
  fetchedWith : List AccessToken
  deriving Repr, DecidableEq

/-- Embeds `AuthorizedUser.GetMeasure`: first `checkToken`; on its error the
method returns `(nil, nil, err)` without any fetch; otherwise it invokes
`a.c.GetMeasure(ctx, *a.t, param)` with the current stored token (the context
and the request parameters are fixed for the invocation and absorbed into the
`fetch` collaborator), and returns the refreshed token exactly when
`checkToken` produced a token response. -/
def AuthorizedUser.GetMeasure
    (refresh : AccessToken → Except String AccessTokenResponse)
    (fetch : AccessToken → Option GetMeasureResp × Option String)
    (now : Int) (a : AuthorizedUser) : DispatchResult :=
  let c := checkToken refresh now a
  match c.err with
  | some e =>
      { resp := none, newToken := none, err := some e, user := c.user,
        refreshedWith := c.refreshedWith, fetchedWith := [] }
  | none =>
      let fr := fetch c.user.t
      match c.tokenResp with
      | some tokenResp =>
          { resp := fr.1, newToken := some tokenResp.AccessToken, err := fr.2,
            user := c.user, refreshedWith := c.refreshedWith,
            fetchedWith := [c.user.t] }
      | none =>
          { resp := fr.1, newToken := none, err := fr.2,
            user := c.user, refreshedWith := c.refreshedWith,
            fetchedWith := [c.user.t] }

/-- Embeds the final `switch mResp.Status` of `Client.GetMeasure`, applied to
a successfully decoded response body: status 0 returns the response with a
nil error, any other status returns the same response together with the API
error message. -/
def Client.GetMeasureResult (mResp : GetMeasureResp) :
    Option GetMeasureResp × Option String :=
  if mResp.Status = 0 then
    (some mResp, none)
  else
    (some mResp, some ("api returned an error: " ++ mResp.APIError))

section Concurrent

/-!
Interleaved semantics of `checkToken` for two goroutines sharing one
`AuthorizedUser`.  The Go method acquires the embedded `sync.Mutex` with
`a.Lock(); defer a.Unlock()` before reading the token, and the lock is held
across the whole check-and-possibly-refresh sequence.  Each thread is broken
into the atomic steps visible in the source: acquire the mutex, evaluate the
expiry test on the shared token, perform the refresh network call (updating
the shared token and the call counter), and release the mutex.  The refresh
collaborator is a function from the current token to the refreshed token
(the success case of `Client.RefreshAccessToken`). -/

/-- Program counter of one goroutine running `checkToken`. -/
inductive ThreadPC where
  | idle
  | testing
  | refreshing
  | releasing
  | done
  deriving Repr, DecidableEq

/-- Shared state of two goroutines running `checkToken` on one
`AuthorizedUser`: the mutex owner (`none` when free), the stored token, the
number of refresh network calls made so far, and the two program counters. -/
structure ConcState where
  lockHeld : Option Bool
  tok : AccessToken
  refreshCount : Nat
  pc0 : ThreadPC
  pc1 : ThreadPC
  deriving Repr, DecidableEq

/-- Program counter of thread `i` (`false` is the first thread). -/
def ConcState.pc (s : ConcState) : Bool → ThreadPC
  | false => s.pc0
  | true => s.pc1

/-- State with thread i's program counter set to `p`. -/
def ConcState.setPc (s : ConcState) : Bool → ThreadPC → ConcState
  | false, p => { s with pc0 := p }
  | true, p => { s with pc1 := p }

/-- Initial state: mutex free, both goroutines about to call `checkToken`
on the stored token `t0`, no refresh call made yet. -/
def initState (t0 : AccessToken) : ConcState :=
  { lockHeld := none, tok := t0, refreshCount := 0,
    pc0 := .idle, pc1 := .idle }

/-- One interleaving step of the two goroutines: `acquire` blocks until the
mutex is free (the Go `a.Lock()`), `testExpired` and `testFresh` evaluate
`time.Now().After(a.t.ExpiresAt.Add(-10 * time.Second))` under the lock,
`doRefresh` performs the refresh network call and replaces the stored token
(`a.t = &tokenResp.AccessToken`), and `release` is the deferred
`a.Unlock()`. -/
inductive Step (now : Int) (refreshResult : AccessToken → AccessToken) :
    ConcState → ConcState → Prop where
  | acquire (s : ConcState) (i : Bool) :
      s.pc i = .idle → s.lockHeld = none →
      Step now refreshResult s
        (ConcState.setPc { s with lockHeld := some i } i .testing)
  | testExpired (s : ConcState) (i : Bool) :
      s.pc i = .testing → s.lockHeld = some i →
      s.tok.ExpiresAt - 10 * second < now →
      Step now refreshResult s (ConcState.setPc s i .refreshing)
  | testFresh (s : ConcState) (i : Bool) :
      s.pc i = .testing → s.lockHeld = some i →
      ¬ (s.tok.ExpiresAt - 10 * second < now) →
      Step now refreshResult s (ConcState.setPc s i .releasing)
  | doRefresh (s : ConcState) (i : Bool) :
      s.pc i = .refreshing → s.lockHeld = some i →
      Step now refreshResult s
        (ConcState.setPc
          { s with tok := refreshResult s.tok,
                   refreshCount := s.refreshCount + 1 } i .releasing)
  | release (s : ConcState) (i : Bool) :
      s.pc i = .releasing → s.lockHeld = some i →
      Step now refreshResult s
        (ConcState.setPc { s with lockHeld := none } i .done)

/-- Reachability from the initial state under arbitrary interleavings. -/
def Reaches (now : Int) (refreshResult : AccessToken → AccessToken)
    (t0 : AccessToken) (s : ConcState) : Prop :=
  Relation.ReflTransGen (Step now refreshResult) (initState t0) s

/-- Inductive invariant of the interleaved semantics, for an initial token
`t0` that is past its safety margin at `now`: the mutex-owner discipline
(any thread past acquire and not yet done holds the lock), and either no
refresh has happened yet — the token is still the initial one and neither
thread has passed the refresh point — or exactly one refresh has happened,
the stored token is within its margin, and no thread is about to refresh. -/
def Inv (now : Int) (t0 : AccessToken) (s : ConcState) : Prop :=
  ((s.pc0 ≠ .idle ∧ s.pc0 ≠ .done) → s.lockHeld = some false) ∧
  ((s.pc1 ≠ .idle ∧ s.pc1 ≠ .done) → s.lockHeld = some true) ∧
  ((s.refreshCount = 0 ∧ s.tok = t0 ∧
      s.pc0 ≠ .releasing ∧ s.pc0 ≠ .done ∧
      s.pc1 ≠ .releasing ∧ s.pc1 ≠ .done) ∨
   (s.refreshCount = 1 ∧ ¬ (s.tok.ExpiresAt - 10 * second < now) ∧
      s.pc0 ≠ .refreshing ∧ s.pc1 ≠ .refreshing))

end Concurrent

/-- Modelled from the spec: the repository code that constructs the
`ExpiresAt` field of an `AccessToken` (part of the token unmarshalling and of
`Client.RefreshAccessToken`, whose bodies are not among the provided source
files) derives it, in the spec's words, as `issued_at + expires_in`.
`ExpiresIn` is a lifetime in seconds, `issuedAt` an instant in nanoseconds. -/
def tokenWithDerivedExpiry (issuedAt : Int) (t : AccessToken) : AccessToken :=
  { t with ExpiresAt := issuedAt + t.ExpiresIn * second }

section Fixtures

/-- Concrete token used in witnesses: expires 5 seconds after the epoch. -/
def tokA : AccessToken :=
  { UserID := 7, AccessToken := "A1", RefreshToken := "R1", ExpiresIn := 3600,
    CSRFToken := "c", TokenType := "Bearer", ExpiresAt := 5 * second }

/-- Concrete refreshed token: expires 3600 seconds after the epoch. -/
def tokFresh : AccessToken :=
  { tokA with AccessToken := "A2", RefreshToken := "R2",
              ExpiresAt := 3600 * second }

/-- Concrete token whose safe expiry (expiry minus the 10-second margin) is
exactly the epoch. -/
def tokBoundary : AccessToken := { tokA with ExpiresAt := 10 * second }

/-- Concrete successful token-exchange response. -/
def respFresh : AccessTokenResponse := { Status := 0, AccessToken := tokFresh }

/-- Refresh collaborator that always succeeds with `respFresh`. -/
def refreshOk : AccessToken → Except String AccessTokenResponse :=
  fun _ => .ok respFresh

/-- Refresh collaborator that always fails. -/
def refreshFail : AccessToken → Except String AccessTokenResponse :=
  fun _ => .error "refresh failed"

/-- Concrete decoded measurement response with status 0. -/
def measureRespOk : GetMeasureResp :=
  { Status := 0, APIError := "",
    Body := { UpdateTime := 0, Timezone := "UTC", MeasureGroups := [],
              More := 0, Offset := 0 } }

/-- Concrete decoded measurement response carrying an API error status. -/
def measureRespErr : GetMeasureResp :=
  { measureRespOk with Status := 401, APIError := "invalid token" }

/-- Fetch collaborator that succeeds. -/
def fetchOk : AccessToken → Option GetMeasureResp × Option String :=
  fun _ => (some measureRespOk, none)

/-- Fetch collaborator that fails with an API error, returning the decoded
response alongside the error as `Client.GetMeasure` does. -/
def fetchErr : AccessToken → Option GetMeasureResp × Option String :=
  fun _ => (some measureRespErr, some "api returned an error: invalid token")

/-- Concrete weight measure: 80.123 kilograms. -/
def measWeight : Measure := { Value := 80123, «Type» := 1, Unit := -3 }

/-- Concrete non-weight measure: a height of 1.80 meters. -/
def measHeight : Measure := { Value := 180, «Type» := 4, Unit := -2 }

/-- Concrete measure group holding one weight and one height measure. -/
def sampleGroup : MeasureGroup :=
  { GroupID := 11, Attrib := 0, Date := 100, Created := 90, Category := 1,
    DeviceID := "dev", Measures := [measWeight, measHeight], Comment := "" }

/-- Final state of the concrete two-goroutine run used in the C7 witness. -/
def finalConc : ConcState :=
  { lockHeld := none, tok := tokFresh, refreshCount := 1,
    pc0 := .done, pc1 := .done }

end Fixtures

/-! Helper lemmas about the sequential semantics. -/

/-- Behaviour of checkToken when the token is within the safety margin. -/
theorem checkToken_of_fresh
    (refresh : AccessToken → Except String AccessTokenResponse)
    (now : Int) (a : AuthorizedUser)
    (h : ¬ (a.t.ExpiresAt - 10 * second < now)) :
    checkToken refresh now a =
      { tokenResp := none, err := none, user := a, refreshedWith := [] } := by
  simp only [checkToken, if_neg h]

/-- Behaviour of checkToken when the margin test fires and the refresh
collaborator succeeds. -/
theorem checkToken_of_expired_ok
    (refresh : AccessToken → Except String AccessTokenResponse)
    (now : Int) (a : AuthorizedUser) (tr : AccessTokenResponse)
    (h : a.t.ExpiresAt - 10 * second < now)
    (hr : refresh a.t = .ok tr) :
    checkToken refresh now a =
      { tokenResp := some tr, err := none, user := { t := tr.AccessToken },
        refreshedWith := [a.t] } := by
  simp only [checkToken, if_pos h, hr]

/-- Behaviour of checkToken when the margin test fires and the refresh
collaborator fails. -/
theorem checkToken_of_expired_error
    (refresh : AccessToken → Except String AccessTokenResponse)
    (now : Int) (a : AuthorizedUser) (e : String)
    (h : a.t.ExpiresAt - 10 * second < now)
    (hr : refresh a.t = .error e) :
    checkToken refresh now a =
      { tokenResp := none, err := some e, user := a,
        refreshedWith := [a.t] } := by
  simp only [checkToken, if_pos h, hr]

/-- Behaviour of the dispatcher when the token is within the margin. -/
theorem getMeasure_of_fresh
    (refresh : AccessToken → Except String AccessTokenResponse)
    (fetch : AccessToken → Option GetMeasureResp × Option String)
    (now : Int) (a : AuthorizedUser)
    (h : ¬ (a.t.ExpiresAt - 10 * second < now)) :
    AuthorizedUser.GetMeasure refresh fetch now a =
      { resp := (fetch a.t).1, newToken := none, err := (fetch a.t).2,
        user := a, refreshedWith := [], fetchedWith := [a.t] } := by
  simp only [AuthorizedUser.GetMeasure, checkToken_of_fresh refresh now a h]

/-- Behaviour of the dispatcher when the margin test fires and the refresh
succeeds. -/
theorem getMeasure_of_expired_ok
    (refresh : AccessToken → Except String AccessTokenResponse)
    (fetch : AccessToken → Option GetMeasureResp × Option String)
    (now : Int) (a : AuthorizedUser) (tr : AccessTokenResponse)
    (h : a.t.ExpiresAt - 10 * second < now)
    (hr : refresh a.t = .ok tr) :
    AuthorizedUser.GetMeasure refresh fetch now a =
      { resp := (fetch tr.AccessToken).1, newToken := some tr.AccessToken,
        err := (fetch tr.AccessToken).2, user := { t := tr.AccessToken },
        refreshedWith := [a.t], fetchedWith := [tr.AccessToken] } := by
  simp only [AuthorizedUser.GetMeasure,
    checkToken_of_expired_ok refresh now a tr h hr]

/-- Behaviour of the dispatcher when the margin test fires and the refresh
fails. -/
theorem getMeasure_of_expired_error
    (refresh : AccessToken → Except String AccessTokenResponse)
    (fetch : AccessToken → Option GetMeasureResp × Option String)
    (now : Int) (a : AuthorizedUser) (e : String)
    (h : a.t.ExpiresAt - 10 * second < now)
    (hr : refresh a.t = .error e) :
    AuthorizedUser.GetMeasure refresh fetch now a =
      { resp := none, newToken := none, err := some e, user := a,
        refreshedWith := [a.t], fetchedWith := [] } := by
  simp only [AuthorizedUser.GetMeasure,
    checkToken_of_expired_error refresh now a e h hr]

/-- Positivity of the ten-second margin, used to move between the two expiry
hypotheses. -/
theorem ten_second_pos : (0 : Int) < 10 * second := by norm_num [second]

/-- C1, counterexample: the claim says a refresh is invoked if and only if
now is at or past safe_expiry = expires_at minus 10 seconds.  At the concrete
instant now = 0 with a token whose expiry is exactly 10 seconds later, now
equals safe_expiry (so the claim demands a refresh), yet checkToken makes no
refresh call, because the source tests time.Now().After(expAt), which is
strict. -/
theorem C1_counterexample :
    (0 : Int) ≥ tokBoundary.ExpiresAt - 10 * second ∧
    (checkToken refreshOk 0 { t := tokBoundary }).refreshedWith = [] := by
  constructor
  · norm_num [tokBoundary, tokA, second]
  · rfl

/-- C1, amended: a refresh of the stored token is invoked if and only if the
current time is strictly past safe_expiry = expires_at minus 10 seconds (the
source uses time.Now().After, a strict comparison), for checkToken and hence
for the dispatcher; in particular a token expiring in exactly 5 seconds
triggers a refresh and a token expiring in 15 seconds does not. -/
theorem C1_refresh_iff_strictly_past_margin
    (refresh : AccessToken → Except String AccessTokenResponse)
    (fetch : AccessToken → Option GetMeasureResp × Option String)
    (now : Int) (a : AuthorizedUser) :
    ((checkToken refresh now a).refreshedWith.length = 1 ↔
      a.t.ExpiresAt - 10 * second < now) ∧
    ((AuthorizedUser.GetMeasure refresh fetch now a).refreshedWith.length = 1 ↔
      a.t.ExpiresAt - 10 * second < now) ∧
    (a.t.ExpiresAt = now + 5 * second →
      (checkToken refresh now a).refreshedWith.length = 1) ∧
    (a.t.ExpiresAt = now + 15 * second →
      (checkToken refresh now a).refreshedWith.length = 0) := by
  have hck : (checkToken refresh now a).refreshedWith.length = 1 ↔
      a.t.ExpiresAt - 10 * second < now := by
    by_cases h : a.t.ExpiresAt - 10 * second < now
    · rcases hr : refresh a.t with e | tr
      · simp [checkToken_of_expired_error refresh now a e h hr, h]
      · simp [checkToken_of_expired_ok refresh now a tr h hr, h]
    · simp [checkToken_of_fresh refresh now a h, h]
  refine ⟨hck, ?_, ?_, ?_⟩
  · by_cases h : a.t.ExpiresAt - 10 * second < now
    · rcases hr : refresh a.t with e | tr
      · simp [getMeasure_of_expired_error refresh fetch now a e h hr, h]
      · simp [getMeasure_of_expired_ok refresh fetch now a tr h hr, h]
    · simp [getMeasure_of_fresh refresh fetch now a h, h]
  · intro h5
    have h : a.t.ExpiresAt - 10 * second < now := by
      rw [h5]
      have := ten_second_pos
      norm_num [second] at *
      omega
    exact hck.mpr h
  · intro h15
    have h : ¬ (a.t.ExpiresAt - 10 * second < now) := by
      rw [h15]
      norm_num [second]
      omega
    simp [checkToken_of_fresh refresh now a h]

/-- Witness for C1: instantiates the amended theorem at the concrete token
expiring 5 seconds after now = 0, discharging the hypothesis. -/
theorem C1_witness :
    tokA.ExpiresAt = 0 + 5 * second ∧
    (checkToken refreshOk 0 { t := tokA }).refreshedWith.length = 1 := by
  refine ⟨by norm_num [tokA], ?_⟩
  exact (C1_refresh_iff_strictly_past_margin refreshOk fetchOk 0
    { t := tokA }).2.2.1 (by norm_num [tokA])

/-- C2: when the margin test fires and the refresh collaborator fails, the
dispatcher returns a nil result, a nil updated token and the refresh error,
the stored token (indeed the whole session state) is unchanged, and no
resource-fetch call is made. -/
theorem C2_refresh_failure_leaves_state_untouched
    (refresh : AccessToken → Except String AccessTokenResponse)
    (fetch : AccessToken → Option GetMeasureResp × Option String)
    (now : Int) (a : AuthorizedUser) (e : String)
    (h : a.t.ExpiresAt - 10 * second < now)
    (hr : refresh a.t = .error e) :
    (AuthorizedUser.GetMeasure refresh fetch now a).resp = none ∧
    (AuthorizedUser.GetMeasure refresh fetch now a).newToken = none ∧
    (AuthorizedUser.GetMeasure refresh fetch now a).err = some e ∧
    (AuthorizedUser.GetMeasure refresh fetch now a).user = a ∧
    (AuthorizedUser.GetMeasure refresh fetch now a).fetchedWith = [] := by
  simp [getMeasure_of_expired_error refresh fetch now a e h hr]

/-- Witness for C2 at a concrete expired token and failing refresh. -/
theorem C2_witness :
    (AuthorizedUser.GetMeasure refreshFail fetchOk (100 * second)
        { t := tokA }).user = { t := tokA } ∧
    (AuthorizedUser.GetMeasure refreshFail fetchOk (100 * second)
        { t := tokA }).fetchedWith = [] := by
  have h := C2_refresh_failure_leaves_state_untouched refreshFail fetchOk
    (100 * second) { t := tokA } "refresh failed"
    (by norm_num [tokA, second]) rfl
  exact ⟨h.2.2.2.1, h.2.2.2.2⟩

/-- C3: on a dispatcher call whose stored token expiry is in the past,
exactly one refresh call is made (with the old token); when that refresh
succeeds the stored token is replaced wholesale by the refreshed token, the
returned updated token is non-nil and equals it, and the resource fetch is
invoked with that refreshed token (subsequent calls read the stored state,
which now holds the refreshed token). -/
theorem C3_single_refresh_under_expiry
    (refresh : AccessToken → Except String AccessTokenResponse)
    (fetch : AccessToken → Option GetMeasureResp × Option String)
    (now : Int) (a : AuthorizedUser) (tr : AccessTokenResponse)
    (hexp : a.t.ExpiresAt < now)
    (hr : refresh a.t = .ok tr) :
    (AuthorizedUser.GetMeasure refresh fetch now a).refreshedWith = [a.t] ∧
    (AuthorizedUser.GetMeasure refresh fetch now a).user =
      { t := tr.AccessToken } ∧
    (AuthorizedUser.GetMeasure refresh fetch now a).newToken =
      some tr.AccessToken ∧
    (AuthorizedUser.GetMeasure refresh fetch now a).fetchedWith =
      [tr.AccessToken] := by
  have h : a.t.ExpiresAt - 10 * second < now := by
    have := ten_second_pos
    omega
  simp [getMeasure_of_expired_ok refresh fetch now a tr h hr]

/-- Witness for C3 at a concrete expired token and succeeding refresh. -/
theorem C3_witness :
    (AuthorizedUser.GetMeasure refreshOk fetchOk (100 * second)
        { t := tokA }).newToken = some tokFresh ∧
    (AuthorizedUser.GetMeasure refreshOk fetchOk (100 * second)
        { t := tokA }).user = { t := tokFresh } := by
  have h := C3_single_refresh_under_expiry refreshOk fetchOk (100 * second)
    { t := tokA } respFresh (by norm_num [tokA, second]) rfl
  exact ⟨h.2.2.1, h.2.1⟩

/-- C4: on a dispatcher call whose stored token expiry is more than 10
seconds in the future, no refresh call is made, the returned updated token is
nil, the session state is unchanged, and the resource fetch is invoked with
the existing stored token. -/
theorem C4_no_refresh_when_fresh
    (refresh : AccessToken → Except String AccessTokenResponse)
    (fetch : AccessToken → Option GetMeasureResp × Option String)
    (now : Int) (a : AuthorizedUser)
    (hfresh : now + 10 * second < a.t.ExpiresAt) :
    (AuthorizedUser.GetMeasure refresh fetch now a).refreshedWith = [] ∧
    (AuthorizedUser.GetMeasure refresh fetch now a).newToken = none ∧
    (AuthorizedUser.GetMeasure refresh fetch now a).user = a ∧
    (AuthorizedUser.GetMeasure refresh fetch now a).fetchedWith = [a.t] := by
  have h : ¬ (a.t.ExpiresAt - 10 * second < now) := by omega
  simp [getMeasure_of_fresh refresh fetch now a h]

/-- Witness for C4 at a concrete fresh token (expiry 3600 s, now = 0). -/
theorem C4_witness :
    (AuthorizedUser.GetMeasure refreshOk fetchOk 0
        { t := tokFresh }).refreshedWith = [] ∧
    (AuthorizedUser.GetMeasure refreshOk fetchOk 0
        { t := tokFresh }).newToken = none := by
  have h := C4_no_refresh_when_fresh refreshOk fetchOk 0 { t := tokFresh }
    (by norm_num [tokFresh, tokA, second])
  exact ⟨h.1, h.2.1⟩

/-- C5, counterexample: the claim says every dispatcher invocation performs
exactly one data-fetch network call; on the concrete invocation with an
expired token and a failing refresh, the dispatcher performs zero data-fetch
calls (the refresh error aborts the call before the fetch). -/
theorem C5_counterexample :
    ¬ ((AuthorizedUser.GetMeasure refreshFail fetchOk (100 * second)
        { t := tokA }).fetchedWith.length = 1) := by
  have h := getMeasure_of_expired_error refreshFail fetchOk (100 * second)
    { t := tokA } "refresh failed" (by norm_num [tokA, second]) rfl
  simp [h]

/-- C5, amended: every dispatcher invocation performs at most one refresh
network call and at most one data-fetch network call; the data-fetch call is
made exactly once unless the token check returned an error (then zero), the
data-fetch is never retried, and a failed refresh is never auto-retried
within the same call. -/
theorem C5_call_counts
    (refresh : AccessToken → Except String AccessTokenResponse)
    (fetch : AccessToken → Option GetMeasureResp × Option String)
    (now : Int) (a : AuthorizedUser) :
    (AuthorizedUser.GetMeasure refresh fetch now a).refreshedWith.length ≤ 1 ∧
    (AuthorizedUser.GetMeasure refresh fetch now a).fetchedWith.length ≤ 1 ∧
    ((AuthorizedUser.GetMeasure refresh fetch now a).fetchedWith = [] ↔
      (checkToken refresh now a).err ≠ none) := by
  by_cases h : a.t.ExpiresAt - 10 * second < now
  · rcases hr : refresh a.t with e | tr
    · simp [getMeasure_of_expired_error refresh fetch now a e h hr,
        checkToken_of_expired_error refresh now a e h hr]
    · simp [getMeasure_of_expired_ok refresh fetch now a tr h hr,
        checkToken_of_expired_ok refresh now a tr h hr]
  · simp [getMeasure_of_fresh refresh fetch now a h,
      checkToken_of_fresh refresh now a h]

/-- Witness for C5: the amended theorem instantiated at a concrete fresh
token and succeeding collaborators. -/
theorem C5_witness :
    (AuthorizedUser.GetMeasure refreshOk fetchOk 0
        { t := tokFresh }).refreshedWith.length ≤ 1 ∧
    (AuthorizedUser.GetMeasure refreshOk fetchOk 0
        { t := tokFresh }).fetchedWith.length ≤ 1 := by
  have h := C5_call_counts refreshOk fetchOk 0 { t := tokFresh }
  exact ⟨h.1, h.2.1⟩

/-- C6: with the expiry derivation modelled from the spec, the stored
ExpiresAt that checkToken compares against equals issued_at plus expires_in,
and the 10-second margin enters only in the comparison against now (the
refresh decision), never in the stored timestamp. -/
theorem C6_expiry_derivation
    (issuedAt : Int) (t : AccessToken) (now : Int)
    (refresh : AccessToken → Except String AccessTokenResponse) :
    (tokenWithDerivedExpiry issuedAt t).ExpiresAt =
      issuedAt + t.ExpiresIn * second ∧
    ((checkToken refresh now
        { t := tokenWithDerivedExpiry issuedAt t }).refreshedWith ≠ [] ↔
      issuedAt + t.ExpiresIn * second - 10 * second < now) := by
  refine ⟨rfl, ?_⟩
  by_cases h : (issuedAt + t.ExpiresIn * second) - 10 * second < now
  · have h' : ({ t := tokenWithDerivedExpiry issuedAt t } :
        AuthorizedUser).t.ExpiresAt - 10 * second < now := h
    rcases hr : refresh (tokenWithDerivedExpiry issuedAt t) with e | tr
    · simp [checkToken_of_expired_error refresh now _ e h' hr, h]
    · simp [checkToken_of_expired_ok refresh now _ tr h' hr, h]
  · have h' : ¬ (({ t := tokenWithDerivedExpiry issuedAt t } :
        AuthorizedUser).t.ExpiresAt - 10 * second < now) := h
    simp [checkToken_of_fresh refresh now _ h', h]

/-- Witness for C6: with issuance at the epoch and a 3600-second lifetime,
the derived expiry is 3600 seconds, and at now = 3601 seconds checkToken
does make a refresh call. -/
theorem C6_witness :
    (tokenWithDerivedExpiry 0 tokA).ExpiresAt = 0 + tokA.ExpiresIn * second ∧
    (checkToken refreshOk (3601 * second)
        { t := tokenWithDerivedExpiry 0 tokA }).refreshedWith ≠ [] := by
  refine ⟨(C6_expiry_derivation 0 tokA (3601 * second) refreshOk).1, ?_⟩
  exact (C6_expiry_derivation 0 tokA (3601 * second) refreshOk).2.mpr
    (by norm_num [tokA, second])

/-- C8: when the refresh succeeds and the subsequent resource fetch fails,
the dispatcher returns the fetch's response and the non-nil refreshed token
together with the fetch error, and the session keeps the refreshed token as
its stored token (the swap is not rolled back). -/
theorem C8_fetch_failure_keeps_refreshed_token
    (refresh : AccessToken → Except String AccessTokenResponse)
    (fetch : AccessToken → Option GetMeasureResp × Option String)
    (now : Int) (a : AuthorizedUser) (tr : AccessTokenResponse)
    (r : Option GetMeasureResp) (ferr : String)
    (hexp : a.t.ExpiresAt - 10 * second < now)
    (hr : refresh a.t = .ok tr)
    (hf : fetch tr.AccessToken = (r, some ferr)) :
    (AuthorizedUser.GetMeasure refresh fetch now a).resp = r ∧
    (AuthorizedUser.GetMeasure refresh fetch now a).newToken =
      some tr.AccessToken ∧
    (AuthorizedUser.GetMeasure refresh fetch now a).err = some ferr ∧
    (AuthorizedUser.GetMeasure refresh fetch now a).user =
      { t := tr.AccessToken } := by
  simp [getMeasure_of_expired_ok refresh fetch now a tr hexp hr, hf]

/-- Witness for C8 at a concrete expired token, succeeding refresh and
failing fetch. -/
theorem C8_witness :
    (AuthorizedUser.GetMeasure refreshOk fetchErr (100 * second)
        { t := tokA }).err = some "api returned an error: invalid token" ∧
    (AuthorizedUser.GetMeasure refreshOk fetchErr (100 * second)
        { t := tokA }).newToken = some tokFresh ∧
    (AuthorizedUser.GetMeasure refreshOk fetchErr (100 * second)
        { t := tokA }).resp = some measureRespErr := by
  have h := C8_fetch_failure_keeps_refreshed_token refreshOk fetchErr
    (100 * second) { t := tokA } respFresh (some measureRespErr)
    "api returned an error: invalid token"
    (by norm_num [tokA, second]) rfl rfl
  exact ⟨h.2.2.1, h.2.1, h.1⟩

/-- C9: on every successfully decoded response, Client.GetMeasure returns a
non-nil error exactly when the Status field is nonzero, and the decoded
response itself is returned non-nil in both cases (nil error when Status is
zero). -/
theorem C9_status_switch (mResp : GetMeasureResp) :
    ((Client.GetMeasureResult mResp).2 ≠ none ↔ mResp.Status ≠ 0) ∧
    (Client.GetMeasureResult mResp).1 = some mResp := by
  by_cases h : mResp.Status = 0 <;>
    simp [Client.GetMeasureResult, h]

/-- Inner loop of Weights: folding the append-if-weight step over the
measures of one group extends the accumulator with the filterMap of
ToWeight. -/
theorem weights_inner (g : MeasureGroup) (ms : Measures)
    (acc : List WeightMeasurement) :
    ms.foldl (fun ws meas =>
      match meas.ToWeight (some g) with
      | some w => ws ++ [w]
      | none => ws) acc
    = acc ++ ms.filterMap (fun meas => meas.ToWeight (some g)) := by
  induction ms generalizing acc with
  | nil => simp
  | cons m ms ih =>
    simp only [List.foldl_cons]
    cases h : m.ToWeight (some g) with
    | none => rw [ih]; simp [List.filterMap_cons, h]
    | some w => rw [ih]; simp [List.filterMap_cons, h]

/-- Outer loop of Weights in terms of flatMap and filterMap. -/
theorem weights_outer (gs : MeasureGroups) (acc : List WeightMeasurement) :
    gs.foldl (fun weights g =>
      g.Measures.foldl (fun ws meas =>
        match meas.ToWeight (some g) with
        | some w => ws ++ [w]
        | none => ws) weights) acc
    = acc ++ gs.flatMap
        (fun g => g.Measures.filterMap (fun meas => meas.ToWeight (some g))) := by
  induction gs generalizing acc with
  | nil => simp
  | cons g gs ih =>
    simp only [List.foldl_cons]
    rw [weights_inner g g.Measures acc, ih]
    simp [List.flatMap_cons]

/-- C10: Weights returns exactly the non-nil results of ToWeight applied to
every measure with its enclosing group, in group-then-measure traversal
order, and ToWeight is nil exactly on the measures whose type is not
MeasureTypeWeightKilogram. -/
theorem C10_weights :
    (∀ gs : MeasureGroups, MeasureGroups.Weights gs =
      gs.flatMap
        (fun g => g.Measures.filterMap (fun meas => meas.ToWeight (some g)))) ∧
    (∀ (m : Measure) (group : Option MeasureGroup),
      m.ToWeight group = none ↔ ¬ m.«Type» = MeasureTypeWeightKilogram) := by
  constructor
  · intro gs
    have h := weights_outer gs []
    simpa [MeasureGroups.Weights] using h
  · intro m group
    by_cases h : m.«Type» = MeasureTypeWeightKilogram <;>
      simp [Measure.ToWeight, h]

/-- Witness for C9: on the concrete response with status 401 the returned
error is non-nil and the response is returned alongside it. -/
theorem C9_witness :
    (Client.GetMeasureResult measureRespErr).2 ≠ none ∧
    (Client.GetMeasureResult measureRespErr).1 = some measureRespErr := by
  refine ⟨?_, (C9_status_switch measureRespErr).2⟩
  exact (C9_status_switch measureRespErr).1.mpr
    (by norm_num [measureRespErr, measureRespOk])

/-- Witness for C10: the loop agrees with the filterMap form on the concrete
sample group, and ToWeight rejects the concrete height measure. -/
theorem C10_witness :
    MeasureGroups.Weights [sampleGroup] =
      [sampleGroup].flatMap
        (fun g => g.Measures.filterMap (fun meas => meas.ToWeight (some g))) ∧
    measHeight.ToWeight none = none := by
  refine ⟨C10_weights.1 [sampleGroup], ?_⟩
  exact (C10_weights.2 measHeight none).mpr
    (by norm_num [measHeight, MeasureTypeWeightKilogram])

/-- Initial state of the two-goroutine run satisfies the invariant. -/
theorem inv_init (now : Int) (t0 : AccessToken) :
    Inv now t0 (initState t0) := by
  refine ⟨?_, ?_, Or.inl ⟨rfl, rfl, ?_, ?_, ?_, ?_⟩⟩ <;> simp [initState]

/-- Every interleaving step preserves the invariant, provided the initial
token is past its margin at now and every refreshed token is within its
margin at now. -/
theorem inv_step (now : Int) (f : AccessToken → AccessToken)
    (t0 : AccessToken)
    (hexp : t0.ExpiresAt - 10 * second < now)
    (hfresh : ∀ t, ¬ ((f t).ExpiresAt - 10 * second < now))
    (s s' : ConcState) (hstep : Step now f s s') (hinv : Inv now t0 s) :
    Inv now t0 s' := by
  obtain ⟨hm0, hm1, hAB⟩ := hinv
  cases hstep with
  | acquire i hpc hlock =>
    cases i <;>
      dsimp only [ConcState.pc, ConcState.setPc] at hpc ⊢ <;>
      refine ⟨?_, ?_, ?_⟩ <;>
      dsimp only
    · intro _; rfl
    · intro h1
      have h := hm1 h1
      rw [hlock] at h
      simp at h
    · rcases hAB with hA | hB
      · exact Or.inl ⟨hA.1, hA.2.1, by simp, by simp,
          hA.2.2.2.2.1, hA.2.2.2.2.2⟩
      · exact Or.inr ⟨hB.1, hB.2.1, by simp, hB.2.2.2⟩
    · intro h0
      have h := hm0 h0
      rw [hlock] at h
      simp at h
    · intro _; rfl
    · rcases hAB with hA | hB
      · exact Or.inl ⟨hA.1, hA.2.1, hA.2.2.1, hA.2.2.2.1, by simp, by simp⟩
      · exact Or.inr ⟨hB.1, hB.2.1, hB.2.2.1, by simp⟩
  | testExpired i hpc hlock hx =>
    rcases hAB with hA | hB
    · cases i <;>
        dsimp only [ConcState.pc, ConcState.setPc] at hpc hlock ⊢ <;>
        refine ⟨?_, ?_, Or.inl ⟨hA.1, hA.2.1, ?_, ?_, ?_, ?_⟩⟩ <;>
        dsimp only <;>
        simp_all
    · exact absurd hx hB.2.1
  | testFresh i hpc hlock hx =>
    rcases hAB with hA | hB
    · rw [hA.2.1] at hx
      exact absurd hexp hx
    · cases i <;>
        dsimp only [ConcState.pc, ConcState.setPc] at hpc hlock ⊢ <;>
        refine ⟨?_, ?_, Or.inr ⟨hB.1, hB.2.1, ?_, ?_⟩⟩ <;>
        dsimp only <;>
        simp_all
  | doRefresh i hpc hlock =>
    rcases hAB with hA | hB
    · cases i <;>
        dsimp only [ConcState.pc, ConcState.setPc] at hpc hlock ⊢
      · have hpc1 : s.pc1 = ThreadPC.idle := by
          by_contra hq
          have h1 : s.lockHeld = some true := hm1 ⟨hq, hA.2.2.2.2.2⟩
          rw [hlock] at h1
          simp at h1
        refine ⟨?_, ?_, Or.inr ⟨?_, ?_, ?_, ?_⟩⟩ <;> dsimp only
        · intro _; exact hlock
        · intro h1; exact absurd hpc1 h1.1
        · omega
        · rw [hA.2.1]; exact hfresh t0
        · simp
        · rw [hpc1]; simp
      · have hpc0 : s.pc0 = ThreadPC.idle := by
          by_contra hq
          have h0 : s.lockHeld = some false := hm0 ⟨hq, hA.2.2.2.1⟩
          rw [hlock] at h0
          simp at h0
        refine ⟨?_, ?_, Or.inr ⟨?_, ?_, ?_, ?_⟩⟩ <;> dsimp only
        · intro h0; exact absurd hpc0 h0.1
        · intro _; exact hlock
        · omega
        · rw [hA.2.1]; exact hfresh t0
        · rw [hpc0]; simp
        · simp
    · cases i <;> dsimp only [ConcState.pc] at hpc
      · exact absurd hpc hB.2.2.1
      · exact absurd hpc hB.2.2.2
  | release i hpc hlock =>
    rcases hAB with hA | hB
    · cases i <;> dsimp only [ConcState.pc] at hpc
      · exact absurd hpc hA.2.2.1
      · exact absurd hpc hA.2.2.2.2.1
    · cases i <;>
        dsimp only [ConcState.pc, ConcState.setPc] at hpc hlock ⊢ <;>
        refine ⟨?_, ?_, Or.inr ⟨hB.1, hB.2.1, ?_, ?_⟩⟩ <;>
        dsimp only
      · intro h0
        exact absurd rfl h0.2
      · intro h1
        have h := hm1 h1
        rw [hlock] at h
        simp at h
      · simp
      · exact hB.2.2.2
      · intro h0
        have h := hm0 h0
        rw [hlock] at h
        simp at h
      · intro h1
        exact absurd rfl h1.2
      · exact hB.2.2.1
      · simp

/-- C7: the whole check-and-possibly-refresh sequence runs under the single
exclusive mutex, so in the interleaved semantics of two goroutines sharing
one AuthorizedUser the critical sections mutually exclude each other, and
starting from an expired token (whose refresh produces an unexpired token)
every reachable state has made at most the single refresh: when both
goroutines have finished, exactly one refresh call was made in total. -/
theorem C7_lock_serializes_single_refresh
    (now : Int) (f : AccessToken → AccessToken) (t0 : AccessToken)
    (hexp : t0.ExpiresAt < now)
    (hfresh : ∀ t, ¬ ((f t).ExpiresAt - 10 * second < now))
    (s : ConcState) (hs : Reaches now f t0 s) :
    (¬ ((s.pc0 ≠ .idle ∧ s.pc0 ≠ .done) ∧
        (s.pc1 ≠ .idle ∧ s.pc1 ≠ .done))) ∧
    (s.pc0 = .done → s.pc1 = .done → s.refreshCount = 1) := by
  have hexp' : t0.ExpiresAt - 10 * second < now := by
    have := ten_second_pos
    omega
  have hinv : Inv now t0 s := by
    induction hs with
    | refl => exact inv_init now t0
    | tail hsteps hstep ih =>
        exact inv_step now f t0 hexp' hfresh _ _ hstep ih
  refine ⟨?_, ?_⟩
  · rintro ⟨h0, h1⟩
    have e0 := hinv.1 h0
    have e1 := hinv.2.1 h1
    rw [e0] at e1
    simp at e1
  · intro hd0 hd1
    rcases hinv.2.2 with hA | hB
    · exact absurd hd0 hA.2.2.2.1
    · exact hB.1

/-- Concrete two-goroutine run for the C7 witness: thread 0 acquires, finds
the token expired, refreshes and releases; thread 1 then acquires, finds the
refreshed token fresh, and releases without refreshing. -/
theorem reaches_finalConc :
    Reaches (100 * second) (fun _ => tokFresh) tokA finalConc := by
  refine Relation.ReflTransGen.head
    (Step.acquire _ false rfl rfl) ?_
  refine Relation.ReflTransGen.head
    (Step.testExpired _ false rfl rfl (by decide)) ?_
  refine Relation.ReflTransGen.head
    (Step.doRefresh _ false rfl rfl) ?_
  refine Relation.ReflTransGen.head
    (Step.release _ false rfl rfl) ?_
  refine Relation.ReflTransGen.head
    (Step.acquire _ true rfl rfl) ?_
  refine Relation.ReflTransGen.head
    (Step.testFresh _ true rfl rfl (by decide)) ?_
  refine Relation.ReflTransGen.head
    (Step.release _ true rfl rfl) ?_
  exact Relation.ReflTransGen.refl

/-- Witness for C7: the concrete interleaved run ends with both goroutines
done and, by the theorem, exactly one refresh call in total. -/
theorem C7_witness :
    tokA.ExpiresAt < 100 * second ∧
    finalConc.pc0 = .done ∧ finalConc.pc1 = .done ∧
    finalConc.refreshCount = 1 := by
  refine ⟨by norm_num [tokA, second], rfl, rfl, ?_⟩
  exact (C7_lock_serializes_single_refresh (100 * second) (fun _ => tokFresh)
      tokA (by norm_num [tokA, second])
      (fun t => by norm_num [tokFresh, tokA, second])
      finalConc reaches_finalConc).2 rfl rfl

end Withings
